import Mathlib

/-!
Verification development for the email-generator application core.

This file gives a shallow embedding, in Lean 4, of the three coupled
components of the application that the specification covers:

* the pipeline executor of the workflow module
  (file src/workflow/langgraph_flow.py: execute_workflow, generate_email,
  the local stub generator and the quota-error classifier);
* the resilient invocation layer
  (file src/utils/llm_wrapper.py: LLMWrapper.run_with_retries,
  LLMWrapper.invoke_chain, retry-delay parsing) together with the metrics
  sink (file src/utils/metrics.py) and the client-side rate limiter
  (file src/utils/rate_limiter.py);
* the persistence gateway
  (file src/memory/memory_manager.py: MemoryManager.save_draft,
  load_drafts, save_profile, load_profile and their DB/JSON halves).

Python dictionaries that the code merges key by key are embedded either as
record types with one optional field per key the code reads or writes, or
as insertion-ordered association lists with Python dict update semantics.
Machine floats of the source (seconds of delay, backoff factors) are
embedded as rationals.  Fallible calls are embedded as Except values; a
try/except of the source becomes a match on the Except.
-/

/-! ## Python-semantics helpers -/

/-- Python expression x or y for optional strings: a present, non-empty
string is truthy; None and the empty string fall through to y. -/
def pyOrOptStr (x y : Option String) : Option String :=
  match x with
  | some s => if s = "" then y else some s
  | none => y

/-- Python expression x or y where x is an optional string and y a plain
string default (for patterns such as d.get("content") or d.get("draft", "")). -/
def pyOrStr (x : Option String) (y : String) : String :=
  match x with
  | some s => if s = "" then y else s
  | none => y

/-- Insertion-ordered association list standing for a Python dict.  Keys are
unique by construction of the update operations below. -/
abbrev PyDict (α : Type) := List (String × α)

/-- Python dict assignment d[k] = v: replace the value in place when the key
exists (keeping its position), append at the end otherwise. -/
def pyInsert (d : PyDict α) (k : String) (v : α) : PyDict α :=
  match d with
  | [] => [(k, v)]
  | (k₀, v₀) :: rest =>
    if k₀ = k then (k₀, v) :: rest else (k₀, v₀) :: pyInsert rest k v

/-- Python dict.update(u) / {**d, **u}: fold the updates into d in order. -/
def pyUpdate (d u : PyDict α) : PyDict α :=
  u.foldl (fun acc kv => pyInsert acc kv.1 kv.2) d

/-- Python lookup d.get(k). -/
def pyGet (d : PyDict α) (k : String) : Option α :=
  match d with
  | [] => none
  | (k₀, v₀) :: rest => if k₀ = k then some v₀ else pyGet rest k

/-- Python str.lower (the inputs of interest are ASCII, where Char.toLower
agrees with the Python semantics), implemented over the character list so
that it evaluates by kernel reduction. -/
def pyLower (s : String) : String :=
  ⟨s.data.map Char.toLower⟩

/-- Python len(s): number of characters. -/
def pyLen (s : String) : Nat :=
  s.data.length

/-- Python s[:n]. -/
def pyTake (s : String) (n : Nat) : String :=
  ⟨s.data.take n⟩

/-- Python str.strip for the whitespace characters space, tab, newline and
carriage return (the ones arising in this codebase). -/
def pyStrip (s : String) : String :=
  ⟨(s.data.dropWhile Char.isWhitespace).reverse.dropWhile Char.isWhitespace |>.reverse⟩

/-- Split a character list at every occurrence of the separator character. -/
def listSplitOnChar (sep : Char) : List Char → List (List Char)
  | [] => [[]]
  | c :: cs =>
    let rest := listSplitOnChar sep cs
    if c = sep then [] :: rest
    else
      match rest with
      | [] => [[c]]
      | r :: rs => (c :: r) :: rs

/-- Python s.split(sep) for a one-character separator. -/
def pySplitChar (s : String) (sep : Char) : List String :=
  (listSplitOnChar sep s.data).map String.mk

/-- Python str.splitlines for newline-delimited text (the repository only
feeds it strings whose line breaks are the newline character).  Python drops
a trailing empty fragment after a final newline. -/
def pySplitLines (s : String) : List String :=
  if s = "" then []
  else
    let parts := pySplitChar s '\n'
    match parts.getLast? with
    | some "" => parts.dropLast
    | _ => parts

/-- Python s.replace(old, new) for one-character old and new. -/
def pyReplaceChar (s : String) (old new : Char) : String :=
  ⟨s.data.map (fun c => if c = old then new else c)⟩

/-- Does the list l start with the pattern p? -/
def listStartsWith : List Char → List Char → Bool
  | _, [] => true
  | [], _ :: _ => false
  | c :: cs, d :: ds => c == d && listStartsWith cs ds

/-- Does the pattern p occur contiguously inside l? -/
def listHasInfix (p : List Char) : List Char → Bool
  | [] => p.isEmpty
  | c :: cs => listStartsWith (c :: cs) p || listHasInfix p cs

/-- Python membership test sub in s on strings (contiguous substring). -/
def pyInStr (sub s : String) : Bool :=
  listHasInfix sub.data s.data

/-! ## Quota-error classifier

Embedding of the nested function _is_quota_error of execute_workflow
(src/workflow/langgraph_flow.py, lines 225-235).  The Python code lowers
the stringified exception, returns False on an empty message, and otherwise
tests membership of each keyword of a fixed list in the lowered message. -/

/-- The keyword list of _is_quota_error, verbatim from the source. -/
def quotaKeywords : List String :=
  ["quota", "429", "resourceexhausted", "you exceeded", "generate_content_free_tier"]

/-- _is_quota_error(exc): msg = str(exc).lower(); empty msg is not a quota
error; otherwise any keyword occurring as a substring classifies it. -/
def _is_quota_error (excText : String) : Bool :=
  let msg := pyLower excText
  if msg = "" then false
  else quotaKeywords.any (fun k => pyInStr k msg)

/-- Stated from the claim wording for comparison (claim C7): classification
by the four substrings "quota", "429", "resource exhausted", "exceeded",
matched case-insensitively. -/
def specQuotaClassified (excText : String) : Bool :=
  ["quota", "429", "resource exhausted", "exceeded"].any
    (fun k => pyInStr k (pyLower excText))

/-! ## C7 theorems -/

/-- C7 counterexample: the message "resource exhausted" contains the
substring "resource exhausted" of the claimed keyword list, so the claim
classifies it as quota-exhaustion, yet _is_quota_error (whose keyword is the
unspaced "resourceexhausted") does not. -/
theorem C7_counterexample :
    _is_quota_error "resource exhausted" = false ∧
      specQuotaClassified "resource exhausted" = true := by decide

/-- C7 (amended): the executor classifies a stage exception as
quota-exhaustion if and only if its lowered message text contains one of
the five substrings "quota", "429", "resourceexhausted", "you exceeded",
"generate_content_free_tier" (the source keyword list; the source guard for
an empty message changes nothing, since no keyword is a substring of the
empty string). -/
theorem C7_quota_classifier_amended (msg : String) :
    _is_quota_error msg = true ↔
      (pyInStr "quota" (pyLower msg) = true ∨ pyInStr "429" (pyLower msg) = true ∨
       pyInStr "resourceexhausted" (pyLower msg) = true ∨
       pyInStr "you exceeded" (pyLower msg) = true ∨
       pyInStr "generate_content_free_tier" (pyLower msg) = true) := by
  show (if pyLower msg = "" then false
      else quotaKeywords.any fun k => pyInStr k (pyLower msg)) = true ↔ _
  by_cases h : pyLower msg = ""
  · rw [if_pos h, h]
    decide
  · rw [if_neg h]
    simp [quotaKeywords]

/-! ## Retry-delay parsing

Embedding of LLMWrapper._parse_retry_delay (src/utils/llm_wrapper.py,
lines 87-130).  The Python code runs five case-insensitive regular
expression searches in order, then a last-resort search; each pattern is a
literal keyword followed by optional whitespace and a decimal number (the
first two additionally require a trailing letter s).  The searches are
embedded as deterministic scanners over the lowered character list; the
deterministic scan agrees with the regex engine on these patterns because
the digit run and the optional fraction group admit no useful backtracking
(dropping digits from a greedy match can never make a following literal
match, as the next character is then still a digit or a dot). -/

/-- Scan a run of decimal digits, returning its value, its length and the
remaining characters; none when no digit is present. -/
def scanDigitsAux (v cnt : Nat) : List Char → (Nat × Nat × List Char)
  | [] => (v, cnt, [])
  | c :: cs =>
    if c.isDigit then scanDigitsAux (v * 10 + (c.toNat - 48)) (cnt + 1) cs
    else (v, cnt, c :: cs)

/-- Digit run with at least one digit. -/
def scanDigits (cs : List Char) : Option (Nat × Nat × List Char) :=
  let r := scanDigitsAux 0 0 cs
  if r.2.1 = 0 then none else some r

/-- The regex group \d+(\.\d+)? as an exact rational. -/
def scanNum (cs : List Char) : Option (ℚ × List Char) :=
  match scanDigits cs with
  | none => none
  | some (v, _, rest) =>
    match rest with
    | '.' :: rest₂ =>
      match scanDigits rest₂ with
      | some (f, fc, rest₃) => some ((v : ℚ) + (f : ℚ) / ((10 : ℚ) ^ fc), rest₃)
      | none => some ((v : ℚ), rest)
    | _ => some ((v : ℚ), rest)

/-- Match a literal keyword at the head of the character list and drop it. -/
def dropLit : List Char → List Char → Option (List Char)
  | [], cs => some cs
  | _ :: _, [] => none
  | l :: ls, c :: cs => if c = l then dropLit ls cs else none

/-- Pattern "retry in\s*(\d+(\.\d+)?)s" at the head of the list. -/
def tryRetryIn (cs : List Char) : Option ℚ := do
  let r ← dropLit "retry in".data cs
  let (v, r₂) ← scanNum (r.dropWhile Char.isWhitespace)
  match r₂ with
  | 's' :: _ => some v
  | _ => none

/-- Pattern "please retry in\s*(\d+(\.\d+)?)s" at the head of the list. -/
def tryPleaseRetryIn (cs : List Char) : Option ℚ := do
  let r ← dropLit "please retry in".data cs
  let (v, r₂) ← scanNum (r.dropWhile Char.isWhitespace)
  match r₂ with
  | 's' :: _ => some v
  | _ => none

/-- Patterns "retry_after[:=]\s*NUM" and "retry-after[:=]\s*NUM" at the head
of the list; the keyword is passed in. -/
def tryRetryAfter (kw : String) (cs : List Char) : Option ℚ := do
  let r ← dropLit kw.data cs
  match r with
  | c :: r₂ =>
    if c = ':' ∨ c = '=' then
      (scanNum (r₂.dropWhile Char.isWhitespace)).map Prod.fst
    else none
  | [] => none

/-- Pattern "seconds:\s*NUM" at the head of the list. -/
def trySecondsColon (cs : List Char) : Option ℚ := do
  let r ← dropLit "seconds:".data cs
  (scanNum (r.dropWhile Char.isWhitespace)).map Prod.fst

/-- Last-resort pattern "retry[^\d\n\r]{0,30}(\d+(\.\d+)?)" at the head of
the list: after the keyword, a run of at most 30 characters none of which is
a digit or a line break, then a number. -/
def tryLastResort (cs : List Char) : Option ℚ := do
  let r ← dropLit "retry".data cs
  let gap := r.takeWhile (fun c => ¬ c.isDigit ∧ c ≠ '\n' ∧ c ≠ '\r')
  if gap.length ≤ 30 then (scanNum (r.drop gap.length)).map Prod.fst
  else none

/-- re.search: try the head-anchored matcher at every start position, left
to right (leftmost match wins). -/
def searchFrom (f : List Char → Option ℚ) : List Char → Option ℚ
  | [] => f []
  | c :: cs =>
    match f (c :: cs) with
    | some v => some v
    | none => searchFrom f cs

/-- _parse_retry_delay(exc): None for empty text, else the five patterns in
order, else the last-resort scan.  IGNORECASE searches over the original
text are embedded as searches of lowered patterns over the lowered text. -/
def _parse_retry_delay (text : String) : Option ℚ :=
  if text = "" then none
  else
    let low := (pyLower text).data
    (searchFrom tryRetryIn low).orElse fun _ =>
    (searchFrom tryPleaseRetryIn low).orElse fun _ =>
    (searchFrom (tryRetryAfter "retry_after") low).orElse fun _ =>
    (searchFrom (tryRetryAfter "retry-after") low).orElse fun _ =>
    (searchFrom trySecondsColon low).orElse fun _ =>
    searchFrom tryLastResort low

/-! ## run_with_retries

Embedding of LLMWrapper.run_with_retries (src/utils/llm_wrapper.py, lines
132-196).  The callable is modelled as a function from the attempt number
(counting from 1, as the Python attempt counter does after its first
increment) to an Except value.  The Python while-True loop increments
attempt, calls the function, and on failure raises when attempt > max_retries
and otherwise sleeps and retries; it is embedded structurally over the
remaining-failure budget rem = max_retries - (attempt - 1), which the raise
condition makes equivalent.  The embedding returns the result, the number of
attempts performed, and the list of waits slept between attempts. -/

/-- Wait computation of one failed attempt (lines 180-193): prefer a
positive server-suggested delay clamped to max_backoff, else exponential
backoff initial_backoff * factor^(attempt-1) clamped to max_backoff; then
the final safety clamp. -/
def retryDelay (ib bf mb : ℚ) (attempt : Nat) (excText : String) : ℚ :=
  let suggested := _parse_retry_delay excText
  let delay :=
    match suggested with
    | some s => if 0 < s then min s mb else min (ib * bf ^ (attempt - 1)) mb
    | none => min (ib * bf ^ (attempt - 1)) mb
  if mb < delay then mb else delay

/-- The retry loop at a given attempt number with a given remaining-failure
budget. -/
def runRetryLoop (f : Nat → Except String α) (ib bf mb : ℚ) :
    Nat → Nat → Except String α × Nat × List ℚ
  | attempt, 0 =>
    match f attempt with
    | .ok v => (.ok v, attempt, [])
    | .error e =>
      (.error ("LLM call failed after " ++ toString attempt ++ " attempts: " ++ e),
        attempt, [])
  | attempt, rem + 1 =>
    match f attempt with
    | .ok v => (.ok v, attempt, [])
    | .error e =>
      let d := retryDelay ib bf mb attempt e
      let r := runRetryLoop f ib bf mb (attempt + 1) rem
      (r.1, r.2.1, d :: r.2.2)

/-- run_with_retries(func): first attempt is numbered 1; max_retries
failures may be tolerated before the aggregated error is raised. -/
def run_with_retries (f : Nat → Except String α) (max_retries : Nat)
    (ib bf mb : ℚ) : Except String α × Nat × List ℚ :=
  runRetryLoop f ib bf mb 1 max_retries

/-! ## Metrics and invoke_chain

Embedding of MetricsManager.record_call and compute_cost
(src/utils/metrics.py, lines 55-65 and 106-111) and of
LLMWrapper.invoke_chain (src/utils/llm_wrapper.py, lines 198-264).

The chain response is modelled as a record with the response content and
one optional structured-usage slot; the three provider-specific metadata
locations that _extract_token_usage probes in priority order are collapsed
into that single slot, which preserves the only distinction the caller
observes (structured usage present or absent).  The rate limiter is not
consulted here because the configuration flag enable_rate_limiter defaults
to False (src/utils/config.py line 42); the limiter itself is modelled
separately below.  Wall-clock latency and the record timestamp are passed
in as parameters. -/

/-- A chain response: text content plus optional (input, output) token
usage reported by the provider. -/
structure LLMResponse where
  content : String
  usage : Option (Nat × Nat)
deriving DecidableEq

/-- One CallRecord of src/utils/metrics.py (lines 25-33). -/
structure CallRecord where
  model : String
  latency_ms : ℚ
  input_tokens : Nat
  output_tokens : Nat
  cost_usd : ℚ
  error : Option String
  timestamp : ℚ

/-- MetricsManager.record_call: append one record to the session list. -/
def record_call (calls : List CallRecord) (r : CallRecord) : List CallRecord :=
  calls ++ [r]

/-- MetricsManager.compute_cost with the pricing for the model passed in as
the two per-million prices. -/
def compute_cost (priceInPerMillion priceOutPerMillion : ℚ)
    (input_tokens output_tokens : Nat) : ℚ :=
  priceInPerMillion / 1000000 * input_tokens +
    priceOutPerMillion / 1000000 * output_tokens

/-- LLMWrapper._estimate_input_tokens: 0 for empty params, else
max 1 (total length of the space-joined values divided by 4). -/
def _estimate_input_tokens (params : PyDict String) : Nat :=
  if params = [] then 0
  else max 1 (pyLen (String.intercalate " " (params.map Prod.snd)) / 4)

/-- LLMWrapper._estimate_output_tokens: 0 when there is no result, else
max 1 (content length divided by 4). -/
def _estimate_output_tokens (result : Option LLMResponse) : Nat :=
  match result with
  | none => 0
  | some r => max 1 (pyLen r.content / 4)

/-- LLMWrapper._extract_token_usage on the modelled response shape. -/
def _extract_token_usage (result : Option LLMResponse) : Option Nat × Option Nat :=
  match result with
  | none => (none, none)
  | some r =>
    match r.usage with
    | none => (none, none)
    | some (i, o) => (some i, some o)

/-- LLMWrapper.invoke_chain: one rate-limited, retried call followed by the
guaranteed finally block that appends exactly one CallRecord for the whole
invocation.  Returns the call outcome and the metrics list after the call. -/
def invoke_chain (chainCall : Nat → Except String LLMResponse)
    (params : PyDict String) (max_retries : Nat) (ib bf mb : ℚ)
    (modelName : String) (latency_ms timestamp : ℚ)
    (costTracking : Bool) (priceIn priceOut : ℚ)
    (calls : List CallRecord) : Except String LLMResponse × List CallRecord :=
  let est_in := _estimate_input_tokens params
  let res := (run_with_retries chainCall max_retries ib bf mb).1
  let resultOpt := match res with | .ok r => some r | .error _ => none
  let error_msg : Option String := match res with | .ok _ => none | .error e => some e
  let extracted := _extract_token_usage resultOpt
  let in_tok := extracted.1.getD est_in
  let out_tok := match extracted.2 with
    | some o => o
    | none => _estimate_output_tokens resultOpt
  let cost := if costTracking then compute_cost priceIn priceOut in_tok out_tok else 0
  (res, record_call calls
    ⟨modelName, latency_ms, in_tok, out_tok, cost, error_msg, timestamp⟩)

/-! ## C6, C8, C10 theorems -/

/-- The parse of the server hint, in the raw arithmetic shape the scanner
produces. -/
theorem parse_hint_raw : _parse_retry_delay "Please retry in 2.5s" =
    some (((2 : Nat) : ℚ) + ((5 : Nat) : ℚ) / ((10 : ℚ) ^ (1 : Nat))) := rfl

/-- _parse_retry_delay extracts 2.5 seconds from the server hint. -/
theorem parse_hint : _parse_retry_delay "Please retry in 2.5s" = some (5/2 : ℚ) := by
  rw [parse_hint_raw]; norm_num

/-- The wait computed for a failed attempt carrying the server hint is
min(2.5, max_backoff), whatever the backoff parameters and attempt number. -/
theorem retryDelay_hint (ib bf mb : ℚ) (attempt : Nat) :
    retryDelay ib bf mb attempt "Please retry in 2.5s" = min (5/2 : ℚ) mb := by
  unfold retryDelay
  rw [parse_hint]
  simp only []
  rw [if_pos (by norm_num : (0:ℚ) < 5/2)]
  rw [if_neg (not_lt.mpr (min_le_right (5/2 : ℚ) mb))]

/-- On an always-failing callable, the retry loop started at any attempt
number with any remaining budget performs exactly budget + 1 further
attempts, ending at attempt + budget, and yields an error. -/
theorem runRetryLoop_allFail {α : Type} (f : Nat → Except String α) (ib bf mb : ℚ)
    (hf : ∀ a, ∃ e, f a = .error e) :
    ∀ rem attempt, (runRetryLoop f ib bf mb attempt rem).2.1 = attempt + rem ∧
      ∃ m, (runRetryLoop f ib bf mb attempt rem).1 = .error m := by
  intro rem
  induction rem with
  | zero =>
    intro attempt
    obtain ⟨e, he⟩ := hf attempt
    simp [runRetryLoop, he]
  | succ n ih =>
    intro attempt
    obtain ⟨e, he⟩ := hf attempt
    have h₂ := ih (attempt + 1)
    simp only [runRetryLoop, he]
    exact ⟨by rw [h₂.1]; omega, h₂.2⟩

/-- C6: run_with_retries on a callable that raises on every attempt performs
exactly max_retries + 1 attempts and then raises a single aggregated error;
on a callable that fails twice and succeeds on its third attempt, with
max_retries at least 2, it returns that success after exactly 3 attempts. -/
theorem C6_run_with_retries_attempts {α : Type} (max_retries : Nat) (ib bf mb : ℚ) :
    (∀ f : Nat → Except String α, (∀ a, ∃ e, f a = .error e) →
        (run_with_retries f max_retries ib bf mb).2.1 = max_retries + 1 ∧
        ∃ m, (run_with_retries f max_retries ib bf mb).1 = .error m) ∧
    (∀ (f : Nat → Except String α) (v : α), 2 ≤ max_retries →
        (∃ e₁, f 1 = .error e₁) → (∃ e₂, f 2 = .error e₂) → f 3 = .ok v →
        (run_with_retries f max_retries ib bf mb).1 = .ok v ∧
        (run_with_retries f max_retries ib bf mb).2.1 = 3) := by
  constructor
  · intro f hf
    have h := runRetryLoop_allFail f ib bf mb hf max_retries 1
    exact ⟨by rw [show (run_with_retries f max_retries ib bf mb).2.1 =
      (runRetryLoop f ib bf mb 1 max_retries).2.1 from rfl, h.1]; omega, h.2⟩
  · rintro f v hmr ⟨e₁, h1⟩ ⟨e₂, h2⟩ h3
    obtain ⟨k, rfl⟩ : ∃ k, max_retries = (k + 1) + 1 := ⟨max_retries - 2, by omega⟩
    cases k with
    | zero => simp [run_with_retries, runRetryLoop, h1, h2, h3]
    | succ n => simp [run_with_retries, runRetryLoop, h1, h2, h3]

/-- A callable failing on every attempt, for the C6 witness. -/
def c6AllFailCall : Nat → Except String Unit := fun _ => .error "boom"

/-- A callable failing twice and succeeding on attempt 3, for the C6 witness. -/
def c6ThirdTryCall : Nat → Except String Unit :=
  fun a => if a < 3 then .error "attempt failed" else .ok ()

/-- C6 witness at max_retries = 2 with concrete callables. -/
theorem C6_run_with_retries_attempts_witness :
    ((run_with_retries c6AllFailCall 2 1 2 60).2.1 = 2 + 1 ∧
      ∃ m, (run_with_retries c6AllFailCall 2 1 2 60).1 = .error m) ∧
    ((run_with_retries c6ThirdTryCall 2 1 2 60).1 = .ok () ∧
      (run_with_retries c6ThirdTryCall 2 1 2 60).2.1 = 3) := by
  have h := C6_run_with_retries_attempts (α := Unit) 2 1 2 60
  exact ⟨h.1 c6AllFailCall (fun a => ⟨"boom", rfl⟩),
    h.2 c6ThirdTryCall () (by norm_num) ⟨"attempt failed", rfl⟩ ⟨"attempt failed", rfl⟩ rfl⟩

/-- C8: when the first attempt fails with the error text
"Please retry in 2.5s" and at least one retry remains, the wait slept before
the next retry is exactly min(2.5, max_backoff). -/
theorem C8_server_hint_delay {α : Type} (f : Nat → Except String α) (mr : Nat)
    (ib bf mb : ℚ) (hmr : 1 ≤ mr) (hf : f 1 = .error "Please retry in 2.5s") :
    ∃ ds, (run_with_retries f mr ib bf mb).2.2 = min (5/2 : ℚ) mb :: ds := by
  obtain ⟨k, rfl⟩ : ∃ k, mr = k + 1 := ⟨mr - 1, by omega⟩
  refine ⟨(runRetryLoop f ib bf mb 2 k).2.2, ?_⟩
  show (runRetryLoop f ib bf mb 1 (k + 1)).2.2 = _
  simp [runRetryLoop, hf, retryDelay_hint]

/-- A callable that always fails with the server hint, for the C8 witness. -/
def c8HintCall : Nat → Except String Unit := fun _ => .error "Please retry in 2.5s"

/-- C8 witness with max_retries = 1 and max_backoff = 60. -/
theorem C8_server_hint_delay_witness :
    ∃ ds, (run_with_retries c8HintCall 1 1 2 60).2.2 = min (5/2 : ℚ) 60 :: ds :=
  C8_server_hint_delay c8HintCall 1 1 2 60 (by norm_num) rfl

/-- A chain call failing on attempt 1 and succeeding on attempt 2, for the
C10 counterexample. -/
def c10Chain : Nat → Except String LLMResponse :=
  fun a => if a = 1 then .error "boom" else .ok ⟨"hello world", none⟩

/-- C10 counterexample: an invocation whose retry loop performs 2 attempts
appends exactly one CallRecord to an initially empty metrics list, not the
2 records the claim requires (record_call runs once in the finally block of
invoke_chain, after the whole retry loop). -/
theorem C10_metrics_counterexample :
    (run_with_retries c10Chain 3 1 2 60).2.1 = 2 ∧
      (invoke_chain c10Chain [("user_input", "hi")] 3 1 2 60 "gemini-2.0-flash-lite"
        0 0 false 0 0 []).2.length = 1 ∧
      (invoke_chain c10Chain [("user_input", "hi")] 3 1 2 60 "gemini-2.0-flash-lite"
        0 0 false 0 0 []).2.length ≠ 2 :=
  ⟨rfl, rfl, by decide⟩

/-- C10 (amended): every invoke_chain invocation appends exactly one
CallRecord to the metrics list — whatever the number of attempts its retry
loop makes — and appending never mutates previously recorded entries. -/
theorem C10_metrics_amended (chainCall : Nat → Except String LLMResponse)
    (params : PyDict String) (mr : Nat) (ib bf mb : ℚ) (modelName : String)
    (lat ts : ℚ) (ct : Bool) (pIn pOut : ℚ) (calls : List CallRecord) :
    ∃ rec, (invoke_chain chainCall params mr ib bf mb modelName lat ts ct pIn pOut calls).2
        = calls ++ [rec] ∧
      ∀ i, i < calls.length →
        (invoke_chain chainCall params mr ib bf mb modelName lat ts ct pIn pOut calls).2[i]?
          = calls[i]? := by
  refine ⟨_, rfl, ?_⟩
  intro i hi
  show (calls ++ [_])[i]? = calls[i]?
  rw [List.getElem?_append_left hi]

/-! ## Workflow state and the stub generator

Embedding of the workflow module (src/workflow/langgraph_flow.py).  The
EmailState TypedDict is embedded as a record over the keys the module
itself reads or writes (user_input, user_id, tone, parsed_data, recipient,
intent, draft, styled_draft, personalized_draft, final_draft, next_step,
metadata, review_notes); agents may write further keys, but no computation
modelled here observes them.  metadata is a dict whose values here are
optional strings (None is the value of the model key in stub metadata);
review_notes maps a stage name to the error record the executor writes.
Agents of this repository never return a review_notes key (the executor is
its only writer), so stage patches carry every modelled key except
review_notes. -/

/-- The parsed_data dict produced by the stub generator. -/
structure ParsedData where
  recipient_name : String
  recipient_email : String
  email_purpose : String
  key_points : List String
  tone_preference : String
  constraints : PyDict String
  context : String
deriving DecidableEq

/-- One review_notes entry: either a per-stage error record with key
"error", or the reserved quota record with keys "message" and
"original_error". -/
structure ErrEntry where
  error : Option String := none
  message : Option String := none
  original_error : Option String := none
deriving DecidableEq

/-- The workflow state (EmailState TypedDict plus the final_draft,
metadata and review_notes keys the module writes). -/
structure EmailState where
  user_input : String
  user_id : Option String := none
  tone : String := "formal"
  parsed_data : Option ParsedData := none
  recipient : Option String := none
  intent : Option String := none
  draft : Option String := none
  styled_draft : Option String := none
  personalized_draft : Option String := none
  final_draft : Option String := none
  next_step : Option String := none
  metadata : PyDict (Option String) := []
  review_notes : PyDict ErrEntry := []
deriving DecidableEq

/-- The dict of updates a stage returns; a missing field is a key the
stage did not write. -/
structure StatePatch where
  tone : Option String := none
  parsed_data : Option ParsedData := none
  recipient : Option String := none
  intent : Option String := none
  draft : Option String := none
  styled_draft : Option String := none
  personalized_draft : Option String := none
  final_draft : Option String := none
  next_step : Option String := none
  metadata : Option (PyDict (Option String)) := none
deriving DecidableEq

/-- Key-by-key merge of a patch into the state (the for-loop
state[k] = v over the returned updates). -/
def applyPatch (st : EmailState) (p : StatePatch) : EmailState :=
  { st with
    tone := p.tone.getD st.tone,
    parsed_data := match p.parsed_data with | some v => some v | none => st.parsed_data,
    recipient := match p.recipient with | some v => some v | none => st.recipient,
    intent := match p.intent with | some v => some v | none => st.intent,
    draft := match p.draft with | some v => some v | none => st.draft,
    styled_draft := match p.styled_draft with | some v => some v | none => st.styled_draft,
    personalized_draft :=
      match p.personalized_draft with | some v => some v | none => st.personalized_draft,
    final_draft := match p.final_draft with | some v => some v | none => st.final_draft,
    next_step := match p.next_step with | some v => some v | none => st.next_step,
    metadata := p.metadata.getD st.metadata }

/-- Python s.split(":", 1)[1]: everything after the first colon (only used
on lines known to contain one). -/
def pyAfterColon (s : String) : String :=
  ⟨(s.data.dropWhile (fun c => c ≠ ':')).drop 1⟩

/-- Python s.startswith(pre). -/
def pyStartsWith (s pre : String) : Bool :=
  listStartsWith s.data pre.data

/-- The recipient-extraction loop of _generate_stub_state over the first
three non-empty stripped lines: later matches overwrite earlier ones. -/
def stubRecipients (lines : List String) : String × String :=
  lines.foldl
    (fun acc ln =>
      let low := pyLower ln
      let acc :=
        if pyStartsWith low "recipient email:" then (acc.1, pyStrip (pyAfterColon ln))
        else acc
      if pyStartsWith low "recipient:" then (pyStrip (pyAfterColon ln), acc.2)
      else acc)
    ("Recipient", "")

/-- The keyword intent heuristics of _generate_stub_state (text is the
lowered raw input). -/
def stubIntent (text : String) : String :=
  if pyInStr "follow" text || pyInStr "follow-up" text then "follow_up"
  else if pyInStr "thank" text then "thank_you"
  else if pyInStr "meeting" text || pyInStr "schedule" text then "meeting_request"
  else if pyInStr "apolog" text then "apology"
  else if pyInStr "update" text || pyInStr "status" text then "status_update"
  else "outreach"

/-- The key-point loop: up to 4 lines longer than 20 characters, each
truncated to 120 characters. -/
def stubKeyPoints (lines : List String) : List String :=
  lines.foldl
    (fun acc ln =>
      if 4 ≤ acc.length then acc
      else if 20 < pyLen ln then
        acc ++ [if pyLen ln < 120 then ln else pyTake ln 120]
      else acc)
    []

/-- The sentence-fragment fallback for key points. -/
def stubSentences (user_input : String) : List String :=
  (((pySplitChar (pyReplaceChar user_input '\n' ' ') '.').map pyStrip).filter
    (fun s => s ≠ "")).take 3

/-- Draft composition of _generate_stub_state: greeting, purpose sentence,
bulleted key points, fixed closing. -/
def stubDraft (recipient purpose : String) (key_points : List String) : String :=
  let bullets :=
    match key_points with
    | [] => ""
    | _ => String.join (key_points.map (fun p => "• " ++ p ++ "\n")) ++ "\n"
  "Dear " ++ recipient ++ ",\n\n" ++ purpose ++ ".\n\n" ++ bullets ++
    "I look forward to hearing from you.\n\nBest regards"

/-- _generate_stub_state(user_input, tone): the deterministic local
fallback generator (lines 107-185 of the workflow module). -/
def _generate_stub_state (user_input : String) (tone : String) : EmailState :=
  let lines := ((pySplitLines user_input).map pyStrip).filter (fun s => s ≠ "")
  let rp := stubRecipients (lines.take 3)
  let text := pyLower user_input
  let kp₀ := stubKeyPoints lines
  let key_points := if kp₀ = [] then stubSentences user_input else kp₀
  let purpose := match key_points with | p :: _ => p | [] => pyTake text 120
  let draft := stubDraft rp.1 purpose key_points
  { user_input := user_input,
    tone := tone,
    parsed_data := some ⟨rp.1, rp.2, purpose, key_points, tone, [], "stubbed"⟩,
    recipient := some rp.1,
    intent := some (stubIntent text),
    draft := some draft,
    personalized_draft := some draft,
    final_draft := some draft,
    metadata := [("source", some "stub"), ("model", none)] }

/-! ## The workflow executor

Embedding of execute_workflow (src/workflow/langgraph_flow.py, lines
188-292, the path with use_stub = False and developer_mode = False) and of
generate_email (lines 298-327).  A stage (agent) is a named function from
the state to either a patch of updates or a raised error message.  Besides
the final state, the executor here also returns the list of names of the
stages that were called, as the observation needed to state that no stage
after a quota failure runs.  In the quota branch the source updates the
stub state, whose review_notes dict is empty, with the accumulated notes
(an update of an empty dict yields the other dict), and updates the stub
metadata with the source and fallback_from_model keys. -/

/-- A named workflow stage. -/
abbrev Stage := String × (EmailState → Except String StatePatch)

/-- The message text of the reserved review_notes entry. -/
def quotaFallbackNoteText : String :=
  "Detected Gemini quota / 429 error and falling back to local stubbed generator."

/-- The agent loop of execute_workflow: merge updates on success; on error
record the stage error, then either return the stub state (quota) or
continue (anything else).  Also returns the names of the executed stages. -/
def runStages (geminiModel : String) :
    List Stage → EmailState → EmailState × List String
  | [], st => (st, [])
  | (name, f) :: rest, st =>
    match f st with
    | .ok p =>
      let r := runStages geminiModel rest (applyPatch st p)
      (r.1, name :: r.2)
    | .error msg =>
      let st₁ := { st with review_notes := pyInsert st.review_notes name { error := some msg } }
      if _is_quota_error msg then
        let notes₂ := pyInsert st₁.review_notes "gemini_quota_fallback"
          { message := some quotaFallbackNoteText, original_error := some msg }
        let stub := _generate_stub_state st.user_input st.tone
        ({ stub with
            review_notes := notes₂,
            metadata := pyUpdate stub.metadata
              [("source", some "stub"), ("fallback_from_model", some geminiModel)] },
          [name])
      else
        let r := runStages geminiModel rest st₁
        (r.1, name :: r.2)

/-- The state execute_workflow starts from (user_input, default tone,
user_id, provider metadata). -/
def initialWorkflowState (geminiModel user_input user_id : String) : EmailState :=
  { user_input := user_input,
    tone := "formal",
    user_id := some user_id,
    metadata := [("source", some "llm"), ("model", some geminiModel)] }

/-- execute_workflow(user_input, user_id) over a given agent list. -/
def execute_workflow (geminiModel : String) (agents : List Stage)
    (user_input user_id : String) : EmailState × List String :=
  runStages geminiModel agents (initialWorkflowState geminiModel user_input user_id)

/-- The best-available-draft selection of generate_email:
final_draft or personalized_draft or styled_draft or draft or "" with
Python truthiness (empty strings fall through). -/
def bestAvailableDraft (st : EmailState) : String :=
  pyOrStr st.final_draft
    (pyOrStr st.personalized_draft (pyOrStr st.styled_draft (pyOrStr st.draft "")))

/-- The simplified result dict of generate_email. -/
structure EmailResult where
  final_draft : String
  metadata : PyDict (Option String)
  review_notes : PyDict ErrEntry
deriving DecidableEq

/-- generate_email(user_input, user_id): run the workflow and project the
best available draft, the metadata and the review notes. -/
def generate_email (geminiModel : String) (agents : List Stage)
    (user_input user_id : String) : EmailResult :=
  let st := (execute_workflow geminiModel agents user_input user_id).1
  ⟨bestAvailableDraft st, st.metadata, st.review_notes⟩

/-! ## C1 theorems -/

/-- The stub draft always begins with the fixed greeting, so it is never
the empty string. -/
theorem stubDraft_ne_empty (r p : String) (k : List String) : stubDraft r p k ≠ "" := by
  unfold stubDraft
  intro h
  have h₂ := congrArg String.data h
  simp [String.data_append] at h₂

/-- The stub state always carries a non-empty final_draft. -/
theorem stub_final_draft_spec (i t : String) :
    ∃ d, (_generate_stub_state i t).final_draft = some d ∧ d ≠ "" :=
  ⟨_, rfl, stubDraft_ne_empty _ _ _⟩

/-- In a run whose every stage raises, if some stage raises a
quota-classified error then the run ends in the stub state (whose
final_draft is the stub draft). -/
theorem runStages_allRaise_quota (g : String) :
    ∀ (agents : List Stage) (st : EmailState),
      (∀ p ∈ agents, ∃ m, ∀ s, p.2 s = .error m) →
      (∃ p ∈ agents, ∃ m, (∀ s, p.2 s = .error m) ∧ _is_quota_error m = true) →
      ∃ i t, (runStages g agents st).1.final_draft = (_generate_stub_state i t).final_draft := by
  intro agents
  induction agents with
  | nil => rintro st _ ⟨p, hp, _⟩; exact absurd hp (List.not_mem_nil p)
  | cons hd rest ih =>
    rintro st hall ⟨p, hp, m', hconst, hquota⟩
    rcases hd with ⟨name, f⟩
    obtain ⟨m, hm⟩ := hall (name, f) (List.mem_cons_self (name, f) rest)
    dsimp only at hm
    by_cases hq : _is_quota_error m = true
    · refine ⟨st.user_input, st.tone, ?_⟩
      simp only [runStages, hm st, hq, if_true]
    · rcases List.mem_cons.mp hp with heq | hmem
      · exfalso
        have h₂ := hconst st
        rw [heq] at h₂
        dsimp only at h₂
        rw [hm st] at h₂
        rw [← Except.error.inj h₂] at hquota
        exact hq hquota
      · have hall₂ : ∀ q ∈ rest, ∃ mm, ∀ s, q.2 s = .error mm :=
          fun q hq₂ => hall q (List.mem_cons_of_mem _ hq₂)
        obtain ⟨i, t, hres⟩ := ih
          { st with review_notes := pyInsert st.review_notes name { error := some m } }
          hall₂ ⟨p, hmem, m', hconst, hquota⟩
        refine ⟨i, t, ?_⟩
        simp only [runStages, hm st, hq, if_false]
        exact hres

/-- In a run whose every stage raises and no raised error is
quota-classified, none of the four draft fields is ever written. -/
theorem runStages_allRaise_noQuota (g : String) :
    ∀ (agents : List Stage) (st : EmailState),
      (∀ p ∈ agents, ∃ m, ∀ s, p.2 s = .error m) →
      (∀ p ∈ agents, ∀ m, (∀ s, p.2 s = .error m) → _is_quota_error m = false) →
      (runStages g agents st).1.final_draft = st.final_draft ∧
      (runStages g agents st).1.personalized_draft = st.personalized_draft ∧
      (runStages g agents st).1.styled_draft = st.styled_draft ∧
      (runStages g agents st).1.draft = st.draft := by
  intro agents
  induction agents with
  | nil => intro st _ _; exact ⟨rfl, rfl, rfl, rfl⟩
  | cons hd rest ih =>
    intro st hall hnq
    rcases hd with ⟨name, f⟩
    obtain ⟨m, hm⟩ := hall (name, f) (List.mem_cons_self (name, f) rest)
    have hq := hnq (name, f) (List.mem_cons_self (name, f) rest) m hm
    dsimp only at hm
    have h₂ := ih { st with review_notes := pyInsert st.review_notes name { error := some m } }
      (fun q hq₂ => hall q (List.mem_cons_of_mem _ hq₂))
      (fun q hq₂ => hnq q (List.mem_cons_of_mem _ hq₂))
    simp only [runStages, hm st, hq, if_false]
    exact h₂

/-- The eight workflow agents, each raising a generic (non-quota) error on
every call, for the C1 counterexample. -/
def allRaiseAgents : List Stage :=
  [("input_parser", fun _ => .error "agent exploded"),
   ("intent_detector", fun _ => .error "agent exploded"),
   ("draft_writer", fun _ => .error "agent exploded"),
   ("tone_stylist", fun _ => .error "agent exploded"),
   ("personalization", fun _ => .error "agent exploded"),
   ("review", fun _ => .error "agent exploded"),
   ("refinement", fun _ => .error "agent exploded"),
   ("router", fun _ => .error "agent exploded")]

/-- C1 counterexample: when every stage raises a generic (non-quota) error,
no draft key is ever written and the best-available draft of the returned
result is the empty string, contradicting the claim that it is non-empty in
every all-raising run. -/
theorem C1_counterexample :
    (generate_email "gemini-2.0-flash-lite" allRaiseAgents "hello" "default").final_draft = "" ∧
    (∀ p ∈ allRaiseAgents, ∀ st, p.2 st = .error "agent exploded") := by
  constructor
  · decide
  · intro p hp st
    fin_cases hp <;> rfl

/-- C1 (amended): in a run where every stage raises, the best-available
draft is non-empty precisely when the fallback triggers: if some stage
raises a quota-classified error the result carries the non-empty stub
draft; if no raised error is quota-classified the best-available draft is
the empty string. -/
theorem C1_amended_draft (g ui uid : String) (agents : List Stage)
    (hall : ∀ p ∈ agents, ∃ m, ∀ st, p.2 st = .error m) :
    ((∃ p ∈ agents, ∃ m, (∀ st, p.2 st = .error m) ∧ _is_quota_error m = true) →
      bestAvailableDraft (execute_workflow g agents ui uid).1 ≠ "") ∧
    ((∀ p ∈ agents, ∀ m, (∀ st, p.2 st = .error m) → _is_quota_error m = false) →
      bestAvailableDraft (execute_workflow g agents ui uid).1 = "") := by
  constructor
  · intro hq
    obtain ⟨i, t, hfd⟩ :=
      runStages_allRaise_quota g agents (initialWorkflowState g ui uid) hall hq
    obtain ⟨d, hd, hdne⟩ := stub_final_draft_spec i t
    rw [hd] at hfd
    show bestAvailableDraft (runStages g agents (initialWorkflowState g ui uid)).1 ≠ ""
    unfold bestAvailableDraft
    rw [hfd]
    simp [pyOrStr, hdne]
  · intro hnq
    have h₄ := runStages_allRaise_noQuota g agents (initialWorkflowState g ui uid) hall hnq
    show bestAvailableDraft (runStages g agents (initialWorkflowState g ui uid)).1 = ""
    unfold bestAvailableDraft
    rw [h₄.1, h₄.2.1, h₄.2.2.1, h₄.2.2.2]
    simp [initialWorkflowState, pyOrStr]

/-- Two stages that always raise, the first with a quota-classified error,
for the C1 witness. -/
def quotaRaiseAgents : List Stage :=
  [("input_parser", fun _ => .error "429 You exceeded your current quota"),
   ("intent_detector", fun _ => .error "agent exploded")]

/-- C1 witness: concrete all-raising runs on both sides of the amendment. -/
theorem C1_amended_draft_witness :
    bestAvailableDraft
        (execute_workflow "gemini-2.0-flash-lite" quotaRaiseAgents "hello" "u").1 ≠ "" ∧
    bestAvailableDraft
        (execute_workflow "gemini-2.0-flash-lite" allRaiseAgents "hello" "u").1 = "" := by
  constructor
  · refine (C1_amended_draft "gemini-2.0-flash-lite" "hello" "u" quotaRaiseAgents ?_).1 ?_
    · intro p hp
      fin_cases hp
      · exact ⟨"429 You exceeded your current quota", fun _ => rfl⟩
      · exact ⟨"agent exploded", fun _ => rfl⟩
    · exact ⟨("input_parser", fun _ => .error "429 You exceeded your current quota"),
        List.mem_cons_self _ _, "429 You exceeded your current quota", fun _ => rfl, by decide⟩
  · refine (C1_amended_draft "gemini-2.0-flash-lite" "hello" "u" allRaiseAgents ?_).2 ?_
    · intro p hp
      fin_cases hp <;> exact ⟨"agent exploded", fun _ => rfl⟩
    · intro p hp m hm
      have h₂ := hm { user_input := "" }
      fin_cases hp <;>
        · rw [show m = "agent exploded" from (Except.error.inj h₂).symm]
          decide

/-- Looking up the key just written returns the written value. -/
theorem pyGet_pyInsert_self (d : PyDict α) (k : String) (v : α) :
    pyGet (pyInsert d k v) k = some v := by
  induction d with
  | nil => simp [pyInsert, pyGet]
  | cons hd rest ih =>
    rcases hd with ⟨k₀, v₀⟩
    by_cases h : k₀ = k
    · simp [pyInsert, pyGet, h]
    · simp [pyInsert, pyGet, h, ih]

/-- Writing one key leaves the lookup of every other key unchanged. -/
theorem pyGet_pyInsert_ne (d : PyDict α) (k key : String) (v : α) (h : key ≠ k) :
    pyGet (pyInsert d k v) key = pyGet d key := by
  have hk : ¬ (k = key) := fun hh => h hh.symm
  induction d with
  | nil => simp [pyInsert, pyGet, hk]
  | cons hd rest ih =>
    rcases hd with ⟨k₀, v₀⟩
    by_cases h₀ : k₀ = k
    · subst h₀
      simp [pyInsert, pyGet, hk]
    · by_cases h₁ : k₀ = key
      · subst h₁
        simp [pyInsert, pyGet, h₀]
      · simp [pyInsert, pyGet, h₀, h₁, ih]

/-- Shape of a run whose stages before stageK never raise quota-classified
errors while stageK always does: the run returns the stub state carrying
the accumulated review notes, the per-stage entry for stageK, the reserved
entry, and the updated metadata, and executes exactly the stages up to and
including stageK. -/
theorem runStages_quota_at (g : String) :
    ∀ (pre : List Stage) (stageK : Stage) (rest : List Stage) (st : EmailState),
      (∀ p ∈ pre, ∀ s m, p.2 s = .error m → _is_quota_error m = false) →
      (∀ s, ∃ m, stageK.2 s = .error m ∧ _is_quota_error m = true) →
      ∃ m, _is_quota_error m = true ∧
        runStages g (pre ++ stageK :: rest) st =
          ({ _generate_stub_state (runStages g pre st).1.user_input (runStages g pre st).1.tone with
              review_notes :=
                pyInsert
                  (pyInsert (runStages g pre st).1.review_notes stageK.1 { error := some m })
                  "gemini_quota_fallback"
                  { message := some quotaFallbackNoteText, original_error := some m },
              metadata :=
                pyUpdate
                  (_generate_stub_state (runStages g pre st).1.user_input
                    (runStages g pre st).1.tone).metadata
                  [("source", some "stub"), ("fallback_from_model", some g)] },
            pre.map Prod.fst ++ [stageK.1]) := by
  intro pre
  induction pre with
  | nil =>
    intro stageK rest st _ hq
    obtain ⟨m, hm, hqm⟩ := hq st
    rcases stageK with ⟨nameK, fK⟩
    dsimp only at hm
    refine ⟨m, hqm, ?_⟩
    simp only [List.nil_append, runStages, hm, hqm, if_true]
    rfl
  | cons hd pre' ih =>
    intro stageK rest st hpre hq
    rcases hd with ⟨name, f⟩
    cases hf : f st with
    | ok p =>
      obtain ⟨m, hqm, hres⟩ := ih stageK rest (applyPatch st p)
        (fun q hq₂ => hpre q (List.mem_cons_of_mem _ hq₂)) hq
      refine ⟨m, hqm, ?_⟩
      simp only [List.cons_append, runStages, hf, List.append_eq]
      rw [hres]
      simp
    | error msg =>
      have hnq : _is_quota_error msg = false :=
        hpre (name, f) (List.mem_cons_self _ _) st msg hf
      obtain ⟨m, hqm, hres⟩ := ih stageK rest
        { st with review_notes := pyInsert st.review_notes name { error := some msg } }
        (fun q hq₂ => hpre q (List.mem_cons_of_mem _ hq₂)) hq
      refine ⟨m, hqm, ?_⟩
      simp only [List.cons_append, runStages, hf, hnq, if_false, List.append_eq]
      rw [hres]
      simp

/-- A single stage raising a quota-classified error, for the C2
counterexample. -/
def c2OnlyQuotaAgent : List Stage :=
  [("input_parser", fun _ => .error "429 You exceeded your current quota")]

/-- C2 counterexample: after a quota-classified stage error the returned
metadata source is "stub", not the claimed "fallback". -/
theorem C2_counterexample :
    pyGet (execute_workflow "gemini-2.0-flash-lite" c2OnlyQuotaAgent "hello" "u").1.metadata
        "source" = some (some "stub") ∧
      pyGet (execute_workflow "gemini-2.0-flash-lite" c2OnlyQuotaAgent "hello" "u").1.metadata
        "source" ≠ some (some "fallback") := by
  constructor
  · decide
  · decide

/-- C2 (amended): when the stages before index k never raise
quota-classified errors and the stage at index k always does, the run stops
right after stage k (executing exactly stages 0..k), the returned metadata
has source "stub" (not "fallback") and records the attempted model under
fallback_from_model, the review notes gain a per-stage entry keyed by the
failing stage name holding the raw error text and the reserved
gemini_quota_fallback entry holding the raw error text, and every entry
recorded by stages 0..k-1 (under a key distinct from those two) is
preserved in the returned notes. -/
theorem C2_amended_fallback (g ui uid : String) (pre : List Stage) (stageK : Stage)
    (rest : List Stage)
    (hpre : ∀ p ∈ pre, ∀ st m, p.2 st = .error m → _is_quota_error m = false)
    (hq : ∀ st, ∃ m, stageK.2 st = .error m ∧ _is_quota_error m = true) :
    ∃ m, _is_quota_error m = true ∧
      (execute_workflow g (pre ++ stageK :: rest) ui uid).2
        = pre.map Prod.fst ++ [stageK.1] ∧
      pyGet (execute_workflow g (pre ++ stageK :: rest) ui uid).1.metadata "source"
        = some (some "stub") ∧
      pyGet (execute_workflow g (pre ++ stageK :: rest) ui uid).1.metadata "fallback_from_model"
        = some (some g) ∧
      pyGet (execute_workflow g (pre ++ stageK :: rest) ui uid).1.review_notes
        "gemini_quota_fallback"
        = some { message := some quotaFallbackNoteText, original_error := some m } ∧
      (stageK.1 ≠ "gemini_quota_fallback" →
        pyGet (execute_workflow g (pre ++ stageK :: rest) ui uid).1.review_notes stageK.1
          = some { error := some m }) ∧
      (∀ key v,
        pyGet (runStages g pre (initialWorkflowState g ui uid)).1.review_notes key = some v →
        key ≠ "gemini_quota_fallback" → key ≠ stageK.1 →
        pyGet (execute_workflow g (pre ++ stageK :: rest) ui uid).1.review_notes key = some v) := by
  obtain ⟨m, hqm, hrun⟩ :=
    runStages_quota_at g pre stageK rest (initialWorkflowState g ui uid) hpre hq
  have hrun₁ : (execute_workflow g (pre ++ stageK :: rest) ui uid) =
      runStages g (pre ++ stageK :: rest) (initialWorkflowState g ui uid) := rfl
  refine ⟨m, hqm, ?_, ?_, ?_, ?_, ?_, ?_⟩
  · rw [hrun₁, hrun]
  · rw [hrun₁, hrun]
    rfl
  · rw [hrun₁, hrun]
    rfl
  · rw [hrun₁, hrun]
    exact pyGet_pyInsert_self _ _ _
  · intro hne
    rw [hrun₁, hrun]
    show pyGet (pyInsert _ "gemini_quota_fallback" _) stageK.1 = _
    rw [pyGet_pyInsert_ne _ _ _ _ hne]
    exact pyGet_pyInsert_self _ _ _
  · intro key v hv hne₁ hne₂
    rw [hrun₁, hrun]
    show pyGet (pyInsert _ "gemini_quota_fallback" _) key = _
    rw [pyGet_pyInsert_ne _ _ _ _ hne₁, pyGet_pyInsert_ne _ _ _ _ hne₂]
    exact hv

/-- Two prefix stages (one succeeding, one failing without quota), for the
C2 witness. -/
def c2PreAgents : List Stage :=
  [("input_parser", fun _ => .ok {}),
   ("intent_detector", fun _ => .error "model overloaded")]

/-- The quota-raising stage of the C2 witness. -/
def c2QuotaStage : Stage :=
  ("draft_writer", fun _ => .error "429 You exceeded your current quota")

/-- A trailing stage that must not run, for the C2 witness. -/
def c2RestAgents : List Stage := [("tone_stylist", fun _ => .ok {})]

/-- C2 witness: the amended statement at a concrete four-stage pipeline. -/
theorem C2_amended_fallback_witness :
    ∃ m, _is_quota_error m = true ∧
      (execute_workflow "gemini-2.0-flash-lite" (c2PreAgents ++ c2QuotaStage :: c2RestAgents)
          "hello" "u").2 = c2PreAgents.map Prod.fst ++ [c2QuotaStage.1] ∧
      pyGet (execute_workflow "gemini-2.0-flash-lite" (c2PreAgents ++ c2QuotaStage :: c2RestAgents)
          "hello" "u").1.metadata "source" = some (some "stub") ∧
      pyGet (execute_workflow "gemini-2.0-flash-lite" (c2PreAgents ++ c2QuotaStage :: c2RestAgents)
          "hello" "u").1.metadata "fallback_from_model" = some (some "gemini-2.0-flash-lite") ∧
      pyGet (execute_workflow "gemini-2.0-flash-lite" (c2PreAgents ++ c2QuotaStage :: c2RestAgents)
          "hello" "u").1.review_notes "gemini_quota_fallback"
        = some { message := some quotaFallbackNoteText, original_error := some m } ∧
      (c2QuotaStage.1 ≠ "gemini_quota_fallback" →
        pyGet (execute_workflow "gemini-2.0-flash-lite"
            (c2PreAgents ++ c2QuotaStage :: c2RestAgents) "hello" "u").1.review_notes
          c2QuotaStage.1 = some { error := some m }) ∧
      (∀ key v,
        pyGet (runStages "gemini-2.0-flash-lite" c2PreAgents
            (initialWorkflowState "gemini-2.0-flash-lite" "hello" "u")).1.review_notes key
          = some v →
        key ≠ "gemini_quota_fallback" → key ≠ c2QuotaStage.1 →
        pyGet (execute_workflow "gemini-2.0-flash-lite"
            (c2PreAgents ++ c2QuotaStage :: c2RestAgents) "hello" "u").1.review_notes key
          = some v) := by
  refine C2_amended_fallback "gemini-2.0-flash-lite" "hello" "u" c2PreAgents c2QuotaStage
    c2RestAgents ?_ ?_
  · intro p hp st m hm
    fin_cases hp
    · exact absurd hm (by simp)
    · rw [show m = "model overloaded" from (Except.error.inj hm).symm]
      decide
  · intro st
    exact ⟨"429 You exceeded your current quota", rfl, by decide⟩

/-! ## Persistence gateway: data model

Embedding of MemoryManager (src/memory/memory_manager.py).  The flat-file
backend is a dict from user id to the parsed content of the corresponding
JSON file (key present exactly when the file exists).  Preference values
are opaque strings here: the modelled operations move them around without
inspecting them.  A raising call is an Except.error; a try/except of the
source is a match.

The three relational helpers of the source (_save_draft_db,
_load_drafts_db, _save_profile_db) can never reach the database: each
begins with from src.db.models import ..., and importing src/db/models.py
raises sqlalchemy.exc.InvalidRequestError, because its declarative Draft
class binds a JSON column to the attribute name metadata (line 78), which
the declarative API reserves.  The import failure is not cached, so every
call raises again (and even past the import, the Draft(draft_metadata=...)
keyword at lines 147-151 and 244-248 names an attribute the model does not
define).  The embeddings of the three helpers therefore raise
unconditionally, mirroring the program; the db field of the world records
the notional relational store that these helpers never touch, so that the
states the specification speaks about (a reachable backend, an unreachable
one) remain expressible. -/

/-- One row of the drafts table as src/db/models.py declares it.  The
metadata field carries the very column name whose declarative reservation
makes the module unimportable. -/
structure DraftRow where
  id : Nat
  user_id : String
  content : String
  original_input : Option String
  metadata : PyDict String
  created_at : Nat
deriving DecidableEq

/-- One row of the user_profiles table, with the fields the manager reads
or writes. -/
structure ProfileRow where
  id : String
  email : String
  name : Option String
  company : Option String
  role : Option String
  oauth_provider : Option String
  oauth_user_id : Option String
  preferences : PyDict String
  updated_at : Nat
deriving DecidableEq

/-- The notional relational backend: down (no reachable database) or a
table pair with an id counter. -/
inductive DBState where
  | down
  | up (next_id : Nat) (profiles : List ProfileRow) (drafts : List DraftRow)
deriving DecidableEq

/-- One draft record of a flat-file drafts array (the dicts save_draft is
called with and _save_draft_json stores verbatim). -/
structure JDraft where
  content : Option String := none
  draft : Option String := none
  original_input : Option String := none
  metadata : Option (PyDict String) := none
  created_at : Option String := none
deriving DecidableEq

/-- The profile_data dict of save_profile: canonical keys, legacy aliases,
a plain signature, oauth linkage and the preferences map. -/
structure ProfileData where
  name : Option String := none
  user_name : Option String := none
  email : Option String := none
  user_email : Option String := none
  company : Option String := none
  user_company : Option String := none
  role : Option String := none
  user_title : Option String := none
  signature : Option String := none
  oauth_provider : Option String := none
  oauth_user_id : Option String := none
  preferences : Option (PyDict String) := none
deriving DecidableEq

/-- Both storage backends together. -/
structure PersistWorld where
  db : DBState
  fileDrafts : PyDict (List JDraft)
  fileProfiles : PyDict ProfileData
deriving DecidableEq

/-- A draft as load_drafts returns it: a row dict from the relational
backend (never produced by the broken relational path), or a raw record
from the flat file. -/
inductive LoadedDraft where
  | fromDb (id : Nat) (content : String) (original_input : Option String)
      (metadata : PyDict String) (created_at : Nat)
  | fromFile (d : JDraft)
deriving DecidableEq

/-- Python list slicing drafts[:limit] guarded by `if limit:` — a None or
zero limit leaves the list whole. -/
def pyLimit (l : List α) : Option Nat → List α
  | none => l
  | some n => if n = 0 then l else l.take n

/-- The exception text every relational helper raises at its model
import. -/
def declarativeImportError : String :=
  "Attribute name metadata is reserved when using the Declarative API."

/-! ## Persistence gateway: draft operations -/

/-- MemoryManager._save_draft_db (lines 119-161): its first statement,
from src.db.models import Draft, UserProfile (line 121), raises before any
backend work, whatever the arguments and backend state; the profile
auto-creation and draft insert below it are dead code. -/
def _save_draft_db (w : PersistWorld) (uid : String) (d : JDraft) (now : Nat) :
    Except String PersistWorld :=
  .error declarativeImportError

/-- MemoryManager._save_draft_json (lines 163-182): append the record to
the user file, stamping created_at when the key is absent. -/
def _save_draft_json (w : PersistWorld) (uid : String) (d : JDraft) (nowIso : String) :
    PersistWorld :=
  let drafts := (pyGet w.fileDrafts uid).getD []
  let d₂ := if d.created_at = none then { d with created_at := some nowIso } else d
  { w with fileDrafts := pyInsert w.fileDrafts uid (drafts ++ [d₂]) }

/-- MemoryManager.save_draft (lines 92-117): re-probe availability when the
manager is on the file backend, try the relational path, and on any error
fall back to the file path.  Returns the updated _use_db flag and world;
an uncaught exception would surface as an error value. -/
def save_draft (useDb recheck : Bool) (w : PersistWorld) (uid : String) (d : JDraft)
    (now : Nat) (nowIso : String) : Except String (Bool × PersistWorld) :=
  let useDb₂ := if useDb then useDb else recheck
  if useDb₂ then
    match _save_draft_db w uid d now with
    | .ok w₂ => .ok (useDb₂, w₂)
    | .error _ => .ok (useDb₂, _save_draft_json w uid d nowIso)
  else .ok (useDb₂, _save_draft_json w uid d nowIso)

/-- MemoryManager._load_drafts_db (lines 204-285): its first statement,
from src.db.models import Draft (line 206), raises before the query runs,
whatever the arguments and backend state; the query and the whole legacy
migration block below it (row inserts, fallback-file deletion, re-query)
are dead code. -/
def _load_drafts_db (w : PersistWorld) (uid : String) (limit : Option Nat) :
    Except String (List LoadedDraft × PersistWorld) :=
  .error declarativeImportError

/-- MemoryManager._load_drafts_json (lines 287-306): the file records,
most recent first. -/
def _load_drafts_json (w : PersistWorld) (uid : String) (limit : Option Nat) :
    List LoadedDraft :=
  match pyGet w.fileDrafts uid with
  | none => []
  | some drafts => (pyLimit drafts.reverse limit).map .fromFile

/-- MemoryManager.load_drafts (lines 184-202): relational path when the
manager is on the database, with fallback to the file path on any error
(no availability re-probe happens on reads). -/
def load_drafts (useDb : Bool) (w : PersistWorld) (uid : String) (limit : Option Nat) :
    Except String (List LoadedDraft × PersistWorld) :=
  if useDb then
    match _load_drafts_db w uid limit with
    | .ok r => .ok r
    | .error _ => .ok (_load_drafts_json w uid limit, w)
  else .ok (_load_drafts_json w uid limit, w)

/-! ## Persistence gateway: profile operations -/

/-- MemoryManager._save_profile_db (lines 421-485): its first statement,
from src.db.models import UserProfile (line 427), raises before anything
runs (the Draft class of the same module breaks the import), whatever the
arguments and backend state; the alias mapping, the preferences merge over
an existing row and the row creation below it are dead code. -/
def _save_profile_db (w : PersistWorld) (uid : String) (pd : ProfileData) (now : Nat) :
    Except String PersistWorld :=
  .error declarativeImportError

/-- MemoryManager._save_profile_json (lines 487-492): overwrite the user
profile file with the incoming dict as-is. -/
def _save_profile_json (w : PersistWorld) (uid : String) (pd : ProfileData) : PersistWorld :=
  { w with fileProfiles := pyInsert w.fileProfiles uid pd }

/-- MemoryManager.save_profile (lines 402-419): relational path with
fallback to the file path on any error. -/
def save_profile (useDb : Bool) (w : PersistWorld) (uid : String) (pd : ProfileData)
    (now : Nat) : Except String PersistWorld :=
  if useDb then
    match _save_profile_db w uid pd now with
    | .ok w₂ => .ok w₂
    | .error _ => .ok (_save_profile_json w uid pd)
  else .ok (_save_profile_json w uid pd)

/-! ## C3, C5, C9 theorems -/

/-- C3: with the relational backend down (every call on it raises),
save_draft still returns normally — the relational error is caught and the
payload goes to the file backend — and a subsequent load_drafts returns a
list containing the saved draft, served from the file backend. -/
theorem C3_save_draft_resilient (w : PersistWorld) (useDb recheck : Bool) (uid : String)
    (d : JDraft) (now : Nat) (nowIso : String) (hdown : w.db = .down) :
    ∃ mm w₂, save_draft useDb recheck w uid d now nowIso = .ok (mm, w₂) ∧
      ∃ res w₃, load_drafts mm w₂ uid none = .ok (res, w₃) ∧
        LoadedDraft.fromFile
          (if d.created_at = none then { d with created_at := some nowIso } else d) ∈ res := by
  have hdb : _save_draft_db w uid d now = .error declarativeImportError := rfl
  have hdb₂ : _load_drafts_db (_save_draft_json w uid d nowIso) uid none
      = .error declarativeImportError := rfl
  have hmem : LoadedDraft.fromFile
      (if d.created_at = none then { d with created_at := some nowIso } else d)
      ∈ _load_drafts_json (_save_draft_json w uid d nowIso) uid none := by
    unfold _load_drafts_json _save_draft_json
    simp only [pyGet_pyInsert_self, pyLimit, List.mem_map, List.mem_reverse]
    exact ⟨_, List.mem_append_right _ (List.mem_singleton_self _), rfl⟩
  refine ⟨if useDb then useDb else recheck, _save_draft_json w uid d nowIso, ?_, ?_⟩
  · unfold save_draft
    rw [hdb]
    by_cases h : (if useDb then useDb else recheck) = true
    · rw [if_pos h]
    · rw [if_neg h]
  · refine ⟨_load_drafts_json (_save_draft_json w uid d nowIso) uid none,
      _save_draft_json w uid d nowIso, ?_, hmem⟩
    unfold load_drafts
    rw [hdb₂]
    by_cases h : (if useDb then useDb else recheck) = true
    · rw [if_pos h]
    · rw [if_neg h]

/-- A world whose relational backend is down, for the C3 witness. -/
def c3World : PersistWorld := { db := .down, fileDrafts := [], fileProfiles := [] }

/-- A concrete draft payload, for the C3 witness. -/
def c3Draft : JDraft := { content := some "Hello world" }

/-- C3 witness at a concrete world and payload. -/
theorem C3_save_draft_resilient_witness :
    ∃ mm w₂, save_draft true false c3World "u" c3Draft 0 "2026-10-12T00:00:00"
        = .ok (mm, w₂) ∧
      ∃ res w₃, load_drafts mm w₂ "u" none = .ok (res, w₃) ∧
        LoadedDraft.fromFile
          (if c3Draft.created_at = none then
            { c3Draft with created_at := some "2026-10-12T00:00:00" }
          else c3Draft) ∈ res :=
  C3_save_draft_resilient c3World true false "u" c3Draft 0 "2026-10-12T00:00:00" rfl

/-- C5 (code bug in the migration path): _load_drafts_db raises at its
model import before the query or the migration block can run, load_drafts
catches the error, and the call is served by the file backend.  Whatever
the relational table holds and whichever backend flag the manager carries,
a load_drafts call on a user with a legacy file returns the legacy records
newest first and leaves the world unchanged: no Draft row is inserted and
the legacy file is not removed — so a second call does exactly the same,
and the migration the claim describes never happens. -/
theorem C5_migration_never_runs (useDb : Bool) (w : PersistWorld) (uid : String)
    (legacy : List JDraft) (hfile : pyGet w.fileDrafts uid = some legacy) :
    load_drafts useDb w uid none = .ok ((legacy.reverse).map .fromFile, w) := by
  unfold load_drafts _load_drafts_db _load_drafts_json
  cases useDb <;> simp [hfile, pyLimit]

/-- Three legacy records with non-empty content, for the C5 witness. -/
def c5wDrafts : List JDraft :=
  [{ content := some "a draft one" }, { content := some "a draft two" },
   { content := some "a draft three" }]

/-- A world with an empty relational drafts table and the legacy file of
the claim scenario, for the C5 witness. -/
def c5wWorld : PersistWorld :=
  { db := .up 0 [] [], fileDrafts := [("u", c5wDrafts)], fileProfiles := [] }

/-- C5 witness: the claim scenario (legacy file of 3 drafts, empty
relational table) evaluated on the code — the call returns the file
records and changes nothing. -/
theorem C5_migration_never_runs_witness :
    load_drafts true c5wWorld "u" none
      = .ok ((c5wDrafts.reverse).map .fromFile, c5wWorld) :=
  C5_migration_never_runs true c5wWorld "u" c5wDrafts rfl

/-- C9 (code bug in the merge path): _save_profile_db raises at its model
import, save_profile catches the error, and every call overwrites the user
profile file with the incoming dict, whatever the backend flag and the
relational state.  Consequently a preference key stored before the call
and absent from the update does not keep its value: afterwards the stored
profile is the update itself and the lookup of that key misses. -/
theorem C9_preferences_overwritten (useDb : Bool) (w : PersistWorld) (uid : String)
    (pd : ProfileData) (now : Nat) :
    save_profile useDb w uid pd now
        = .ok { w with fileProfiles := pyInsert w.fileProfiles uid pd } ∧
      ∀ pd₀ k v, pyGet w.fileProfiles uid = some pd₀ →
        pyGet (pd₀.preferences.getD []) k = some v →
        pyGet (pd.preferences.getD []) k = none →
        (pyGet (pyInsert w.fileProfiles uid pd) uid).map
            (fun q => pyGet (q.preferences.getD []) k) = some none := by
  constructor
  · unfold save_profile _save_profile_db
    cases useDb <;> rfl
  · intro pd₀ k v h₀ hv hk
    rw [pyGet_pyInsert_self]
    simp [hk]

/-- A stored file profile holding one preference, for the C9 witness. -/
def c9wOld : ProfileData := { preferences := some [("tone", "casual")] }

/-- A profile update carrying one fresh preference key and nothing else,
for the C9 witness. -/
def c9wUpdate : ProfileData := { preferences := some [("length", "short")] }

/-- A world with a notionally healthy relational backend and the stored
profile, for the C9 witness. -/
def c9wWorld : PersistWorld :=
  { db := .up 0 [] [], fileDrafts := [], fileProfiles := [("u", c9wOld)] }

/-- C9 witness: the claim scenario evaluated on the code — the update
overwrites the stored profile and the stored "tone" preference is lost. -/
theorem C9_preferences_overwritten_witness :
    save_profile true c9wWorld "u" c9wUpdate 0
        = .ok { c9wWorld with fileProfiles := pyInsert c9wWorld.fileProfiles "u" c9wUpdate } ∧
      (pyGet (pyInsert c9wWorld.fileProfiles "u" c9wUpdate) "u").map
          (fun q => pyGet (q.preferences.getD []) "tone") = some none := by
  have h := C9_preferences_overwritten true c9wWorld "u" c9wUpdate 0
  exact ⟨h.1, h.2 c9wOld "tone" "casual" rfl (by decide) (by decide)⟩


/-! ## Rate limiter

Embedding of RateLimiter (src/utils/rate_limiter.py).  The constructor
clamps rpm, tpm and max_concurrency below by 1.  The state is the two
deques (request timestamps, token entries) plus the in-flight counter;
wall-clock instants are rationals.  One body of the acquire while-loop
under the lock — purge, the three checks, and either admission or a
computed wait — is acquireStep; the wait durations and jitter only decide
when the caller retries, so a whole execution is a list of loop-iteration
and release events tagged with the clock values time.time() returned, which
are nondecreasing.  The purge pops from the deque front while the head is
older than 60 seconds, which is exactly dropWhile. -/

/-- The mutable limiter state. -/
structure RLState where
  req_timestamps : List ℚ
  token_timestamps : List (ℚ × Nat)
  in_flight : Nat
deriving DecidableEq

/-- One iteration of the acquire loop body under the lock (lines 58-96):
purge both deques, then concurrency, RPM and TPM checks in that order;
admission appends the request timestamp and (for a non-zero estimate) the
token entry and increments in_flight.  Returns the new state and whether
the request was admitted (false = the caller sleeps and retries). -/
def acquireStep (rpm tpm mc : Nat) (st : RLState) (now : ℚ) (est : Nat) :
    RLState × Bool :=
  let reqs := st.req_timestamps.dropWhile (fun ts => decide (ts < now - 60))
  let toks := st.token_timestamps.dropWhile (fun e => decide (e.1 < now - 60))
  if mc ≤ st.in_flight then
    ({ st with req_timestamps := reqs, token_timestamps := toks }, false)
  else if rpm ≤ reqs.length then
    ({ st with req_timestamps := reqs, token_timestamps := toks }, false)
  else if tpm < (toks.map Prod.snd).sum + est then
    ({ st with req_timestamps := reqs, token_timestamps := toks }, false)
  else
    ({ req_timestamps := reqs ++ [now],
       token_timestamps := toks ++ (if est ≠ 0 then [(now, est)] else []),
       in_flight := st.in_flight + 1 }, true)

/-- An observable event of a limiter execution: one acquire-loop iteration
at a clock instant with a token estimate, or a release. -/
inductive RLEvent where
  | acquireTry (now : ℚ) (est : Nat)
  | release
deriving DecidableEq

/-- The clock instants of the acquire iterations of a trace. -/
def eventTimes (evs : List RLEvent) : List ℚ :=
  evs.filterMap (fun e => match e with | .acquireTry now _ => some now | .release => none)

/-- Run a trace of events from a state; the second component collects the
admissions (timestamp, estimate) in order. -/
def rlRun (rpm tpm mc : Nat) : List RLEvent → RLState → RLState × List (ℚ × Nat)
  | [], st => (st, [])
  | .acquireTry now est :: evs, st =>
    let r := acquireStep rpm tpm mc st now est
    let rest := rlRun rpm tpm mc evs r.1
    (rest.1, if r.2 then (now, est) :: rest.2 else rest.2)
  | .release :: evs, st =>
    rlRun rpm tpm mc evs { st with in_flight := st.in_flight - 1 }

/-- The admissions of a trace falling in the trailing window (t-60, t]
closed at both ends as the purge keeps a boundary entry. -/
def windowAdms (adms : List (ℚ × Nat)) (t : ℚ) : List (ℚ × Nat) :=
  adms.filter (fun a => decide (t - 60 ≤ a.1) && decide (a.1 ≤ t))

/-- Total estimated tokens of a list of admissions. -/
def tokSum (l : List (ℚ × Nat)) : Nat :=
  (l.map Prod.snd).sum

/-! ## C4 theorems -/

/-- dropWhile removes some prefix, every element of which satisfied the
predicate. -/
theorem dropWhile_eq_drop (p : α → Bool) (l : List α) :
    ∃ j, j ≤ l.length ∧ l.dropWhile p = l.drop j ∧ ∀ x ∈ l.take j, p x = true := by
  induction l with
  | nil => exact ⟨0, by simp, rfl, by simp⟩
  | cons a l₂ ih =>
    cases hp : p a with
    | true =>
      obtain ⟨j, hj, hdrop, htake⟩ := ih
      refine ⟨j + 1, by simpa using hj, ?_, ?_⟩
      · rw [List.dropWhile_cons_of_pos hp]
        simpa using hdrop
      · intro x hx
        rw [List.take_succ_cons] at hx
        rcases List.mem_cons.mp hx with rfl | hx₂
        · exact hp
        · exact htake x hx₂
    | false =>
      exact ⟨0, by simp, by rw [List.dropWhile_cons_of_neg (by simp [hp])]; rfl, by simp⟩

/-- When a predicate fails on the first n elements, the filtered list is
no longer than the remaining ones. -/
theorem filter_length_le_of_take (w : α → Bool) (l : List α) (n : Nat)
    (h : ∀ x ∈ l.take n, w x = false) :
    (l.filter w).length ≤ (l.drop n).length := by
  conv_lhs => rw [← List.take_append_drop n l]
  rw [List.filter_append]
  rw [List.filter_eq_nil_iff.mpr (fun a ha => by simp [h a ha])]
  simpa using List.length_filter_le w (l.drop n)

/-- Filtering never increases the token total. -/
theorem tokSum_filter_le (w : ℚ × Nat → Bool) (l : List (ℚ × Nat)) :
    tokSum (l.filter w) ≤ tokSum l := by
  induction l with
  | nil => simp
  | cons a l₂ ih =>
    cases hw : w a with
    | true => simpa [tokSum, List.filter_cons, hw] using Nat.add_le_add_left ih a.2
    | false =>
      rw [List.filter_cons, if_neg (by simp [hw])]
      exact le_trans ih (by simp [tokSum])

/-- When a predicate fails on the first n entries, the filtered token
total is bounded by the total of the remaining entries. -/
theorem tokSum_le_of_take (w : ℚ × Nat → Bool) (l : List (ℚ × Nat)) (n : Nat)
    (h : ∀ x ∈ l.take n, w x = false) :
    tokSum (l.filter w) ≤ tokSum (l.drop n) := by
  conv_lhs => rw [← List.take_append_drop n l]
  rw [List.filter_append]
  rw [List.filter_eq_nil_iff.mpr (fun a ha => by simp [h a ha])]
  simpa using tokSum_filter_le w (l.drop n)

/-- Zero-token entries contribute nothing to the token total. -/
theorem tokSum_filter_nonzero (l : List (ℚ × Nat)) :
    tokSum (l.filter (fun a => a.2 ≠ 0)) = tokSum l := by
  induction l with
  | nil => rfl
  | cons a l₂ ih =>
    by_cases ha : a.2 = 0
    · rw [List.filter_cons, if_neg (by simp [ha])]
      simp [tokSum, ha] at ih ⊢
      exact ih
    · rw [List.filter_cons, if_pos (by simpa using ha)]
      simp [tokSum] at ih ⊢
      rw [ih]

/-- Invariant tying the limiter state after processing some events to the
list of admissions so far: each deque is a suffix of the admission list
(timestamps, respectively non-zero token entries), everything purged from
it was older than 60 seconds before the last processed instant m, all
admissions happened by m, and the trailing-window bounds hold so far. -/
def RLInv (rpm tpm : Nat) (st : RLState) (adms : List (ℚ × Nat)) (m : ℚ) : Prop :=
  (∃ k, k ≤ (adms.map Prod.fst).length ∧
     st.req_timestamps = (adms.map Prod.fst).drop k ∧
     ∀ x ∈ (adms.map Prod.fst).take k, x < m - 60) ∧
  (∃ k, k ≤ (adms.filter (fun a => a.2 ≠ 0)).length ∧
     st.token_timestamps = (adms.filter (fun a => a.2 ≠ 0)).drop k ∧
     ∀ e ∈ (adms.filter (fun a => a.2 ≠ 0)).take k, e.1 < m - 60) ∧
  (∀ a ∈ adms, a.1 ≤ m) ∧
  (∀ t : ℚ, (windowAdms adms t).length ≤ rpm ∧ tokSum (windowAdms adms t) ≤ tpm)

/-- Admitting one request at the instant now under the two admission
checks preserves the trailing-window bounds for every window: a window
containing the new admission lies inside [now-60, now+something], so its
prior admissions all survive the purge and are counted by the checks. -/
theorem window_extend (rpm tpm : Nat) (adms : List (ℚ × Nat)) (now : ℚ) (est : Nat)
    (kr kt : Nat)
    (hkr_lt : ∀ x ∈ (adms.map Prod.fst).take kr, x < now - 60)
    (hkt_lt : ∀ e ∈ (adms.filter (fun a => a.2 ≠ 0)).take kt, e.1 < now - 60)
    (hwin : ∀ t, (windowAdms adms t).length ≤ rpm ∧ tokSum (windowAdms adms t) ≤ tpm)
    (hreq : ((adms.map Prod.fst).drop kr).length < rpm)
    (htok : tokSum ((adms.filter (fun a => a.2 ≠ 0)).drop kt) + est ≤ tpm) :
    ∀ t, (windowAdms (adms ++ [(now, est)]) t).length ≤ rpm ∧
      tokSum (windowAdms (adms ++ [(now, est)]) t) ≤ tpm := by
  intro t
  rw [windowAdms, List.filter_append]
  by_cases hc : (t - 60 ≤ now ∧ now ≤ t)
  · have hsing : List.filter (fun a => decide (t - 60 ≤ a.1) && decide (a.1 ≤ t))
        [((now : ℚ), est)] = [(now, est)] := by
      have hb : (decide (t - 60 ≤ ((now : ℚ), est).1) && decide (((now : ℚ), est).1 ≤ t))
          = true := by
        simp only [Bool.and_eq_true, decide_eq_true_eq]
        exact ⟨hc.1, hc.2⟩
      rw [List.filter_cons, hb]
      rfl
    rw [hsing]
    constructor
    · rw [List.length_append]
      have hcount : (windowAdms adms t).length ≤ ((adms.map Prod.fst).drop kr).length := by
        have hmapfil : (windowAdms adms t).length =
            ((adms.map Prod.fst).filter
              (fun x => decide (t - 60 ≤ x) && decide (x ≤ t))).length := by
          rw [windowAdms, List.filter_map]
          simp [Function.comp_def]
        rw [hmapfil]
        refine filter_length_le_of_take _ _ kr ?_
        intro x hx
        have hlt := hkr_lt x hx
        have : ¬ (t - 60 ≤ x) := by
          intro hge
          have h₁ : now - 60 ≤ t - 60 := by linarith [hc.2]
          linarith
        simp [this]
      calc (windowAdms adms t).length + [((now : ℚ), est)].length
          ≤ ((adms.map Prod.fst).drop kr).length + 1 := by
            simpa using Nat.add_le_add_right hcount 1
        _ ≤ rpm := hreq
    · rw [tokSum, List.map_append, List.sum_append]
      have hsum : tokSum (windowAdms adms t) ≤
          tokSum ((adms.filter (fun a => a.2 ≠ 0)).drop kt) := by
        have h₁ : tokSum (windowAdms adms t) =
            tokSum ((adms.filter (fun a => a.2 ≠ 0)).filter
              (fun a => decide (t - 60 ≤ a.1) && decide (a.1 ≤ t))) := by
          rw [windowAdms, ← tokSum_filter_nonzero (adms.filter _), List.filter_comm]
        rw [h₁]
        refine tokSum_le_of_take _ _ kt ?_
        intro e he
        have hlt := hkt_lt e he
        have : ¬ (t - 60 ≤ e.1) := by
          intro hge
          have h₂ : now - 60 ≤ t - 60 := by linarith [hc.2]
          linarith
        simp [this]
      have h₃ : tokSum (windowAdms adms t) + est ≤ tpm := le_trans
        (Nat.add_le_add_right hsum est) htok
      have h₄ : (List.map Prod.snd [((now : ℚ), est)]).sum = est := by simp
      rw [h₄]
      exact h₃
  · have hsing : List.filter (fun a => decide (t - 60 ≤ a.1) && decide (a.1 ≤ t))
        [((now : ℚ), est)] = [] := by
      have hb : (decide (t - 60 ≤ ((now : ℚ), est).1) && decide (((now : ℚ), est).1 ≤ t))
          = false := by
        rcases not_and_or.mp hc with h | h
        · rw [show decide (t - 60 ≤ ((now : ℚ), est).1) = false from decide_eq_false h]
          rfl
        · rw [show decide (((now : ℚ), est).1 ≤ t) = false from decide_eq_false h]
          simp
      rw [List.filter_cons, hb]
      rfl
    rw [hsing, List.append_nil]
    exact hwin t

/-- acquireStep either rejects, leaving the purged deques, or admits with
the two purged-deque checks known to have passed. -/
theorem acquireStep_cases (rpm tpm mc : Nat) (st : RLState) (now : ℚ) (est : Nat) :
    (∃ st₂, acquireStep rpm tpm mc st now est = (st₂, false) ∧
       st₂.req_timestamps = st.req_timestamps.dropWhile (fun ts => decide (ts < now - 60)) ∧
       st₂.token_timestamps
         = st.token_timestamps.dropWhile (fun e => decide (e.1 < now - 60))) ∨
    (acquireStep rpm tpm mc st now est =
       ({ req_timestamps :=
            st.req_timestamps.dropWhile (fun ts => decide (ts < now - 60)) ++ [now],
          token_timestamps :=
            st.token_timestamps.dropWhile (fun e => decide (e.1 < now - 60))
              ++ (if est ≠ 0 then [(now, est)] else []),
          in_flight := st.in_flight + 1 }, true) ∧
       (st.req_timestamps.dropWhile (fun ts => decide (ts < now - 60))).length < rpm ∧
       ((st.token_timestamps.dropWhile (fun e => decide (e.1 < now - 60))).map
           Prod.snd).sum + est ≤ tpm) := by
  unfold acquireStep
  by_cases h1 : mc ≤ st.in_flight
  · exact Or.inl ⟨_, by rw [if_pos h1], rfl, rfl⟩
  · rw [if_neg h1]
    by_cases h2 : rpm ≤ (st.req_timestamps.dropWhile (fun ts => decide (ts < now - 60))).length
    · exact Or.inl ⟨_, by rw [if_pos h2], rfl, rfl⟩
    · rw [if_neg h2]
      by_cases h3 : tpm <
          ((st.token_timestamps.dropWhile (fun e => decide (e.1 < now - 60))).map
            Prod.snd).sum + est
      · exact Or.inl ⟨_, by rw [if_pos h3], rfl, rfl⟩
      · exact Or.inr ⟨by rw [if_neg h3], Nat.lt_of_not_le h2, Nat.le_of_not_lt h3⟩

/-- Main invariant induction over an event trace with nondecreasing clock
values: the trailing-window bounds hold for the full admission list of the
run. -/
theorem rlRun_window_inv (rpm tpm mc : Nat) :
    ∀ (evs : List RLEvent) (st : RLState) (adms : List (ℚ × Nat)) (m : ℚ),
      List.Pairwise (· ≤ ·) (eventTimes evs) →
      (∀ τ ∈ eventTimes evs, m ≤ τ) →
      RLInv rpm tpm st adms m →
      ∀ t, (windowAdms (adms ++ (rlRun rpm tpm mc evs st).2) t).length ≤ rpm ∧
        tokSum (windowAdms (adms ++ (rlRun rpm tpm mc evs st).2) t) ≤ tpm := by
  intro evs
  induction evs with
  | nil =>
    intro st adms m _ _ hinv t
    simpa [rlRun] using hinv.2.2.2 t
  | cons ev evs' ih =>
    intro st adms m hsorted hfut hinv t
    cases ev with
    | release =>
      have hs : eventTimes (RLEvent.release :: evs') = eventTimes evs' := by
        simp [eventTimes]
      rw [hs] at hsorted hfut
      exact ih { st with in_flight := st.in_flight - 1 } adms m hsorted hfut
        ⟨hinv.1, hinv.2.1, hinv.2.2⟩ t
    | acquireTry now est =>
      have hs : eventTimes (RLEvent.acquireTry now est :: evs') = now :: eventTimes evs' := by
        simp [eventTimes]
      rw [hs] at hsorted hfut
      have hnow : m ≤ now := hfut now (List.mem_cons_self _ _)
      have hsorted₂ := (List.pairwise_cons.mp hsorted).2
      have hfut₂ : ∀ τ ∈ eventTimes evs', now ≤ τ := (List.pairwise_cons.mp hsorted).1
      obtain ⟨kr, hkrle, hkreq, hkrlt⟩ := hinv.1
      obtain ⟨kt, hktle, hkteq, hktlt⟩ := hinv.2.1
      have hm := hinv.2.2.1
      have hwin := hinv.2.2.2
      obtain ⟨jr, hjrle, hjreq, hjrp⟩ :=
        dropWhile_eq_drop (fun ts => decide (ts < now - 60)) st.req_timestamps
      obtain ⟨jt, hjtle, hjteq, hjtp⟩ :=
        dropWhile_eq_drop (fun e => decide (e.1 < now - 60)) st.token_timestamps
      have hreqs_eq : st.req_timestamps.dropWhile (fun ts => decide (ts < now - 60))
          = (adms.map Prod.fst).drop (kr + jr) := by
        rw [hjreq, hkreq, List.drop_drop]
      have htoks_eq : st.token_timestamps.dropWhile (fun e => decide (e.1 < now - 60))
          = (adms.filter (fun a => a.2 ≠ 0)).drop (kt + jt) := by
        rw [hjteq, hkteq, List.drop_drop]
      have hkrjr_le : kr + jr ≤ (adms.map Prod.fst).length := by
        have h₀ := hjrle
        rw [hkreq, List.length_drop] at h₀
        omega
      have hktjt_le : kt + jt ≤ (adms.filter (fun a => a.2 ≠ 0)).length := by
        have h₀ := hjtle
        rw [hkteq, List.length_drop] at h₀
        omega
      have hkrjr_lt : ∀ x ∈ (adms.map Prod.fst).take (kr + jr), x < now - 60 := by
        intro x hx
        rw [List.take_add, List.mem_append] at hx
        rcases hx with hx | hx
        · have := hkrlt x hx
          linarith
        · rw [← hkreq] at hx
          have := hjrp x hx
          exact of_decide_eq_true this
      have hktjt_lt : ∀ e ∈ (adms.filter (fun a => a.2 ≠ 0)).take (kt + jt),
          e.1 < now - 60 := by
        intro e he
        rw [List.take_add, List.mem_append] at he
        rcases he with he | he
        · have := hktlt e he
          linarith
        · rw [← hkteq] at he
          have := hjtp e he
          exact of_decide_eq_true this
      rcases acquireStep_cases rpm tpm mc st now est with
        ⟨st₂, heq, hr₂, ht₂⟩ | ⟨heq, hlt, hle⟩
      · have hrun : (rlRun rpm tpm mc (RLEvent.acquireTry now est :: evs') st).2
            = (rlRun rpm tpm mc evs' st₂).2 := by
          show (if (acquireStep rpm tpm mc st now est).2
              then (now, est) :: (rlRun rpm tpm mc evs'
                (acquireStep rpm tpm mc st now est).1).2
              else (rlRun rpm tpm mc evs' (acquireStep rpm tpm mc st now est).1).2) = _
          rw [heq]
          simp
        rw [hrun]
        refine ih st₂ adms now hsorted₂ hfut₂ ⟨?_, ?_, ?_, hwin⟩ t
        · refine ⟨kr + jr, hkrjr_le, ?_, hkrjr_lt⟩
          rw [hr₂, hreqs_eq]
        · refine ⟨kt + jt, hktjt_le, ?_, hktjt_lt⟩
          rw [ht₂, htoks_eq]
        · exact fun a ha => le_trans (hm a ha) hnow
      · have hrun : (rlRun rpm tpm mc (RLEvent.acquireTry now est :: evs') st).2
            = (now, est) :: (rlRun rpm tpm mc evs'
              { req_timestamps :=
                  st.req_timestamps.dropWhile (fun ts => decide (ts < now - 60)) ++ [now],
                token_timestamps :=
                  st.token_timestamps.dropWhile (fun e => decide (e.1 < now - 60))
                    ++ (if est ≠ 0 then [(now, est)] else []),
                in_flight := st.in_flight + 1 }).2 := by
          show (if (acquireStep rpm tpm mc st now est).2
              then (now, est) :: (rlRun rpm tpm mc evs'
                (acquireStep rpm tpm mc st now est).1).2
              else (rlRun rpm tpm mc evs' (acquireStep rpm tpm mc st now est).1).2) = _
          rw [heq]
          rfl
        rw [hrun, List.append_cons]
        refine ih _ (adms ++ [(now, est)]) now hsorted₂ hfut₂ ⟨?_, ?_, ?_, ?_⟩ t
        · refine ⟨kr + jr, ?_, ?_, ?_⟩
          · rw [List.map_append, List.length_append]
            exact le_trans hkrjr_le (Nat.le_add_right _ _)
          · show st.req_timestamps.dropWhile (fun ts => decide (ts < now - 60)) ++ [now] = _
            rw [hreqs_eq, List.map_append]
            rw [List.drop_append_of_le_length hkrjr_le]
            rfl
          · rw [List.map_append, List.take_append_of_le_length hkrjr_le]
            exact hkrjr_lt
        · by_cases hz : est = 0
          · refine ⟨kt + jt, ?_, ?_, ?_⟩
            · rw [List.filter_append]
              rw [show List.filter (fun a => decide (a.2 ≠ 0)) [((now : ℚ), est)] = [] by
                simp [List.filter_cons, hz]]
              rw [List.append_nil]
              exact hktjt_le
            · show st.token_timestamps.dropWhile (fun e => decide (e.1 < now - 60))
                ++ (if est ≠ 0 then [(now, est)] else []) = _
              rw [if_neg (by simp [hz]), List.append_nil, htoks_eq, List.filter_append]
              rw [show List.filter (fun a => decide (a.2 ≠ 0)) [((now : ℚ), est)] = [] by
                simp [List.filter_cons, hz]]
              rw [List.append_nil]
            · rw [List.filter_append]
              rw [show List.filter (fun a => decide (a.2 ≠ 0)) [((now : ℚ), est)] = [] by
                simp [List.filter_cons, hz]]
              rw [List.append_nil]
              exact hktjt_lt
          · refine ⟨kt + jt, ?_, ?_, ?_⟩
            · rw [List.filter_append]
              rw [show List.filter (fun a => decide (a.2 ≠ 0)) [((now : ℚ), est)]
                  = [(now, est)] by simp [List.filter_cons, hz]]
              rw [List.length_append]
              exact le_trans hktjt_le (Nat.le_add_right _ _)
            · show st.token_timestamps.dropWhile (fun e => decide (e.1 < now - 60))
                ++ (if est ≠ 0 then [(now, est)] else []) = _
              rw [if_pos hz, htoks_eq, List.filter_append]
              rw [show List.filter (fun a => decide (a.2 ≠ 0)) [((now : ℚ), est)]
                  = [(now, est)] by simp [List.filter_cons, hz]]
              rw [List.drop_append_of_le_length hktjt_le]
            · rw [List.filter_append]
              rw [show List.filter (fun a => decide (a.2 ≠ 0)) [((now : ℚ), est)]
                  = [(now, est)] by simp [List.filter_cons, hz]]
              rw [List.take_append_of_le_length hktjt_le]
              exact hktjt_lt
        · intro a ha
          rcases List.mem_append.mp ha with ha | ha
          · exact le_trans (hm a ha) hnow
          · rw [List.mem_singleton.mp ha]
        · refine window_extend rpm tpm adms now est (kr + jr) (kt + jt)
            hkrjr_lt hktjt_lt hwin ?_ ?_
          · rw [← hreqs_eq]
            exact hlt
          · show tokSum _ + est ≤ tpm
            rw [← htoks_eq]
            exact hle

/-- C4: for every execution trace of acquire-loop iterations and releases
with nondecreasing clock readings, on a fresh limiter configured with
requests_per_minute at least 1 and tokens_per_minute at least 1 (the
constructor clamps both below by 1), every trailing 60-second window
contains at most requests_per_minute admissions, and the estimated tokens
admitted in it total at most tokens_per_minute. -/
theorem C4_rate_limiter_window (rpm tpm mc : Nat) (h1 : 1 ≤ rpm) (h2 : 1 ≤ tpm)
    (evs : List RLEvent) (hsorted : List.Pairwise (· ≤ ·) (eventTimes evs)) (t : ℚ) :
    (windowAdms (rlRun (max 1 rpm) (max 1 tpm) (max 1 mc) evs ⟨[], [], 0⟩).2 t).length
        ≤ rpm ∧
      tokSum (windowAdms (rlRun (max 1 rpm) (max 1 tpm) (max 1 mc) evs ⟨[], [], 0⟩).2 t)
        ≤ tpm := by
  rw [Nat.max_eq_right h1, Nat.max_eq_right h2]
  have hm0 : ∃ m : ℚ, ∀ τ ∈ eventTimes evs, m ≤ τ := by
    cases he : eventTimes evs with
    | nil => exact ⟨0, by simp⟩
    | cons h ts =>
      rw [he] at hsorted
      refine ⟨h, ?_⟩
      intro τ hτ
      rcases List.mem_cons.mp hτ with rfl | hτ₂
      · exact le_refl τ
      · exact (List.pairwise_cons.mp hsorted).1 τ hτ₂
  obtain ⟨m, hfut⟩ := hm0
  have hinv : RLInv rpm tpm ⟨[], [], 0⟩ [] m := by
    refine ⟨⟨0, by simp, rfl, by simp⟩, ⟨0, by simp, rfl, by simp⟩, by simp, ?_⟩
    intro t'
    exact ⟨by simp [windowAdms], by simp [windowAdms, tokSum]⟩
  have h := rlRun_window_inv rpm tpm (max 1 mc) evs ⟨[], [], 0⟩ [] m hsorted hfut hinv t
  simpa using h

/-- A concrete trace with admissions on both sides of a window boundary,
for the C4 witness. -/
def c4Events : List RLEvent :=
  [.acquireTry 0 10, .acquireTry 30 20, .release, .acquireTry 61 5]

/-- C4 witness on a concrete trace and window. -/
theorem C4_rate_limiter_window_witness :
    (windowAdms (rlRun (max 1 2) (max 1 100) (max 1 1) c4Events ⟨[], [], 0⟩).2 61).length
        ≤ 2 ∧
      tokSum (windowAdms (rlRun (max 1 2) (max 1 100) (max 1 1) c4Events ⟨[], [], 0⟩).2 61)
        ≤ 100 :=
  C4_rate_limiter_window 2 100 1 (by norm_num) (by norm_num) c4Events
    (by simp [c4Events, eventTimes, List.pairwise_cons]; norm_num) 61
